import Mathlib

/-!
Shallow embedding of the apiCall utility (package main, v1.0.3 sources:
`ConvertToUTF8`, `ConvertToWindows1251`, `readFileContent`, `prepareBody`,
`saveResponse`, `doHttpMethod`, `doMultipartPost`) together with proofs of
the behavioural properties claimed for it.

Strings that undergo character-level transformations are embedded as
`List Char`; raw file bytes (Windows-1251 encoded CSV cells) are embedded
as `List Nat` with every element below 256.
-/

set_option maxHeartbeats 1000000

/-- Character strings manipulated by the program, embedded character-wise. -/
abbrev Str := List Char

/-- Raw byte strings (legacy Windows-1251 encoded data). -/
abbrev Bytes := List Nat

/-! ## Encoding converter -/

/-- Modelled from the spec: the "fixed legacy single-byte table" of the
third-party `charmap.Windows1251` codec (not part of this repository).
Pairs `(byte, unicode)` for the high half `0x80..0xFF`; byte `0x98` is the
one code with no mapping, so it is absent from the list. -/
def win1251HighDecode : List (Nat × Nat) := [
  (0x0080, 0x0402), (0x0081, 0x0403), (0x0082, 0x201a), (0x0083, 0x0453),
  (0x0084, 0x201e), (0x0085, 0x2026), (0x0086, 0x2020), (0x0087, 0x2021),
  (0x0088, 0x20ac), (0x0089, 0x2030), (0x008a, 0x0409), (0x008b, 0x2039),
  (0x008c, 0x040a), (0x008d, 0x040c), (0x008e, 0x040b), (0x008f, 0x040f),
  (0x0090, 0x0452), (0x0091, 0x2018), (0x0092, 0x2019), (0x0093, 0x201c),
  (0x0094, 0x201d), (0x0095, 0x2022), (0x0096, 0x2013), (0x0097, 0x2014),
  (0x0099, 0x2122), (0x009a, 0x0459), (0x009b, 0x203a), (0x009c, 0x045a),
  (0x009d, 0x045c), (0x009e, 0x045b), (0x009f, 0x045f), (0x00a0, 0x00a0),
  (0x00a1, 0x040e), (0x00a2, 0x045e), (0x00a3, 0x0408), (0x00a4, 0x00a4),
  (0x00a5, 0x0490), (0x00a6, 0x00a6), (0x00a7, 0x00a7), (0x00a8, 0x0401),
  (0x00a9, 0x00a9), (0x00aa, 0x0404), (0x00ab, 0x00ab), (0x00ac, 0x00ac),
  (0x00ad, 0x00ad), (0x00ae, 0x00ae), (0x00af, 0x0407), (0x00b0, 0x00b0),
  (0x00b1, 0x00b1), (0x00b2, 0x0406), (0x00b3, 0x0456), (0x00b4, 0x0491),
  (0x00b5, 0x00b5), (0x00b6, 0x00b6), (0x00b7, 0x00b7), (0x00b8, 0x0451),
  (0x00b9, 0x2116), (0x00ba, 0x0454), (0x00bb, 0x00bb), (0x00bc, 0x0458),
  (0x00bd, 0x0405), (0x00be, 0x0455), (0x00bf, 0x0457), (0x00c0, 0x0410),
  (0x00c1, 0x0411), (0x00c2, 0x0412), (0x00c3, 0x0413), (0x00c4, 0x0414),
  (0x00c5, 0x0415), (0x00c6, 0x0416), (0x00c7, 0x0417), (0x00c8, 0x0418),
  (0x00c9, 0x0419), (0x00ca, 0x041a), (0x00cb, 0x041b), (0x00cc, 0x041c),
  (0x00cd, 0x041d), (0x00ce, 0x041e), (0x00cf, 0x041f), (0x00d0, 0x0420),
  (0x00d1, 0x0421), (0x00d2, 0x0422), (0x00d3, 0x0423), (0x00d4, 0x0424),
  (0x00d5, 0x0425), (0x00d6, 0x0426), (0x00d7, 0x0427), (0x00d8, 0x0428),
  (0x00d9, 0x0429), (0x00da, 0x042a), (0x00db, 0x042b), (0x00dc, 0x042c),
  (0x00dd, 0x042d), (0x00de, 0x042e), (0x00df, 0x042f), (0x00e0, 0x0430),
  (0x00e1, 0x0431), (0x00e2, 0x0432), (0x00e3, 0x0433), (0x00e4, 0x0434),
  (0x00e5, 0x0435), (0x00e6, 0x0436), (0x00e7, 0x0437), (0x00e8, 0x0438),
  (0x00e9, 0x0439), (0x00ea, 0x043a), (0x00eb, 0x043b), (0x00ec, 0x043c),
  (0x00ed, 0x043d), (0x00ee, 0x043e), (0x00ef, 0x043f), (0x00f0, 0x0440),
  (0x00f1, 0x0441), (0x00f2, 0x0442), (0x00f3, 0x0443), (0x00f4, 0x0444),
  (0x00f5, 0x0445), (0x00f6, 0x0446), (0x00f7, 0x0447), (0x00f8, 0x0448),
  (0x00f9, 0x0449), (0x00fa, 0x044a), (0x00fb, 0x044b), (0x00fc, 0x044c),
  (0x00fd, 0x044d), (0x00fe, 0x044e), (0x00ff, 0x044f)]

/-- Modelled from the spec: the encoding direction of the same fixed legacy
single-byte table, pairs `(unicode, byte)`. -/
def win1251HighEncode : List (Nat × Nat) := [
  (0x0402, 0x0080), (0x0403, 0x0081), (0x201a, 0x0082), (0x0453, 0x0083),
  (0x201e, 0x0084), (0x2026, 0x0085), (0x2020, 0x0086), (0x2021, 0x0087),
  (0x20ac, 0x0088), (0x2030, 0x0089), (0x0409, 0x008a), (0x2039, 0x008b),
  (0x040a, 0x008c), (0x040c, 0x008d), (0x040b, 0x008e), (0x040f, 0x008f),
  (0x0452, 0x0090), (0x2018, 0x0091), (0x2019, 0x0092), (0x201c, 0x0093),
  (0x201d, 0x0094), (0x2022, 0x0095), (0x2013, 0x0096), (0x2014, 0x0097),
  (0x2122, 0x0099), (0x0459, 0x009a), (0x203a, 0x009b), (0x045a, 0x009c),
  (0x045c, 0x009d), (0x045b, 0x009e), (0x045f, 0x009f), (0x00a0, 0x00a0),
  (0x040e, 0x00a1), (0x045e, 0x00a2), (0x0408, 0x00a3), (0x00a4, 0x00a4),
  (0x0490, 0x00a5), (0x00a6, 0x00a6), (0x00a7, 0x00a7), (0x0401, 0x00a8),
  (0x00a9, 0x00a9), (0x0404, 0x00aa), (0x00ab, 0x00ab), (0x00ac, 0x00ac),
  (0x00ad, 0x00ad), (0x00ae, 0x00ae), (0x0407, 0x00af), (0x00b0, 0x00b0),
  (0x00b1, 0x00b1), (0x0406, 0x00b2), (0x0456, 0x00b3), (0x0491, 0x00b4),
  (0x00b5, 0x00b5), (0x00b6, 0x00b6), (0x00b7, 0x00b7), (0x0451, 0x00b8),
  (0x2116, 0x00b9), (0x0454, 0x00ba), (0x00bb, 0x00bb), (0x0458, 0x00bc),
  (0x0405, 0x00bd), (0x0455, 0x00be), (0x0457, 0x00bf), (0x0410, 0x00c0),
  (0x0411, 0x00c1), (0x0412, 0x00c2), (0x0413, 0x00c3), (0x0414, 0x00c4),
  (0x0415, 0x00c5), (0x0416, 0x00c6), (0x0417, 0x00c7), (0x0418, 0x00c8),
  (0x0419, 0x00c9), (0x041a, 0x00ca), (0x041b, 0x00cb), (0x041c, 0x00cc),
  (0x041d, 0x00cd), (0x041e, 0x00ce), (0x041f, 0x00cf), (0x0420, 0x00d0),
  (0x0421, 0x00d1), (0x0422, 0x00d2), (0x0423, 0x00d3), (0x0424, 0x00d4),
  (0x0425, 0x00d5), (0x0426, 0x00d6), (0x0427, 0x00d7), (0x0428, 0x00d8),
  (0x0429, 0x00d9), (0x042a, 0x00da), (0x042b, 0x00db), (0x042c, 0x00dc),
  (0x042d, 0x00dd), (0x042e, 0x00de), (0x042f, 0x00df), (0x0430, 0x00e0),
  (0x0431, 0x00e1), (0x0432, 0x00e2), (0x0433, 0x00e3), (0x0434, 0x00e4),
  (0x0435, 0x00e5), (0x0436, 0x00e6), (0x0437, 0x00e7), (0x0438, 0x00e8),
  (0x0439, 0x00e9), (0x043a, 0x00ea), (0x043b, 0x00eb), (0x043c, 0x00ec),
  (0x043d, 0x00ed), (0x043e, 0x00ee), (0x043f, 0x00ef), (0x0440, 0x00f0),
  (0x0441, 0x00f1), (0x0442, 0x00f2), (0x0443, 0x00f3), (0x0444, 0x00f4),
  (0x0445, 0x00f5), (0x0446, 0x00f6), (0x0447, 0x00f7), (0x0448, 0x00f8),
  (0x0449, 0x00f9), (0x044a, 0x00fa), (0x044b, 0x00fb), (0x044c, 0x00fc),
  (0x044d, 0x00fd), (0x044e, 0x00fe), (0x044f, 0x00ff)]

/-- Decoding of one legacy byte: ASCII bytes decode to themselves, high bytes
through the table; `none` when the byte has no mapping. -/
def win1251DecodeByte (b : Nat) : Option Char :=
  if b < 128 then some (Char.ofNat b)
  else ((win1251HighDecode.find? (fun p => p.1 == b)).map (fun p => Char.ofNat p.2))

/-- Encoding of one character to its legacy byte (represented as a `Char`
with code below 256): ASCII characters encode to themselves, characters in
the table to their high byte, and every unmappable character to the
placeholder byte `?` (the behaviour of `encoding.ReplaceUnsupported`
wrapping the `charmap.Windows1251` encoder). -/
def win1251EncodeChar (c : Char) : Char :=
  if c.toNat < 128 then c
  else
    match win1251HighEncode.find? (fun p => p.1 == c.toNat) with
    | some p => Char.ofNat p.2
    | none => '?'

/-- Embedding of `ConvertToUTF8` (source `ConvertToUTF8`, part_002 lines
371-378): decodes a legacy byte string; the whole call fails as soon as some
byte has no mapping, mirroring `charmap.Windows1251.NewDecoder().String`
as the spec describes it (Modelled from the spec for the third-party
decoder: "fails with a DecodeError if a byte has no mapping"). -/
def ConvertToUTF8 : Bytes → Except Unit Str
  | [] => Except.ok []
  | b :: rest =>
    match win1251DecodeByte b with
    | none => Except.error ()
    | some c =>
      match ConvertToUTF8 rest with
      | Except.error e => Except.error e
      | Except.ok cs => Except.ok (c :: cs)

/-- Modelled from the spec: Go `unicode.IsSpace` (standard library, not part
of this repository) — the white-space code points of Unicode plus the
Latin-1 white space. -/
def goIsSpace (c : Char) : Bool :=
  let n := c.toNat
  n == 9 || n == 10 || n == 11 || n == 12 || n == 13 || n == 32 ||
  n == 0x85 || n == 0xa0 || n == 0x1680 || (0x2000 ≤ n && n ≤ 0x200a) ||
  n == 0x2028 || n == 0x2029 || n == 0x202f || n == 0x205f || n == 0x3000

/-- Accumulator worker for `goFields`: `acc` is the (reversed) word read so
far. Mirrors `strings.FieldsFunc(s, unicode.IsSpace)`. -/
def fieldsGo : Str → Str → List Str
  | acc, [] => if acc.isEmpty then [] else [acc.reverse]
  | acc, c :: rest =>
    if goIsSpace c then
      if acc.isEmpty then fieldsGo [] rest else acc.reverse :: fieldsGo [] rest
    else fieldsGo (c :: acc) rest

/-- Embedding of `strings.FieldsFunc(s, unicode.IsSpace)`: the maximal runs
of non-white-space characters of `s`. -/
def goFields (s : Str) : List Str := fieldsGo [] s

/-- Embedding of `strings.Join(l, " ")`. -/
def goJoinSpace : List Str → Str
  | [] => []
  | [w] => w
  | w :: w2 :: rest => w ++ ' ' :: goJoinSpace (w2 :: rest)

/-- The placeholder replacement step of `ConvertToWindows1251`:
`strings.ReplaceAll(s, "?", " ")`, character-wise. -/
def replaceQmark (s : Str) : Str := s.map (fun c => if c = '?' then ' ' else c)

/-- The sanitizer inside `ConvertToWindows1251` (part_002 lines 387-391):
replace every placeholder `?` with a space, then collapse every run of
white space to one space and trim, via `FieldsFunc` + `Join`. -/
def sanitizeWin1251 (s : Str) : Str := goJoinSpace (goFields (replaceQmark s))

/-- Embedding of `ConvertToWindows1251` (part_002 lines 380-394): encode to
the legacy code page with `?` as the placeholder for unmappable characters,
then sanitize. The conversion is total: the replacing encoder does not
fail. -/
def ConvertToWindows1251 (s : Str) : Str := sanitizeWin1251 (s.map win1251EncodeChar)

/-! ## Tabular input reader and body composer -/

/-- File-name constants of the source (part_002 lines 22-26). -/
def outputFile : String := "output.csv"

/-- Source constant `inputFile`. -/
def inputFile : String := "input.csv"

/-- Source constant `objectFile`. -/
def objectFile : String := "object.csv"

/-- The input directory, abstracted: the listing (in `os.ReadDir` order) of
file names together with the CSV records of each file. A file's content is
embedded post-lexing as its list of rows, each row a list of raw
(legacy-encoded) cells. -/
abbrev Fs := List (String × List (List Bytes))

/-- Opening a file of the directory by name. -/
def fsFind (fs : Fs) (name : String) : Option (List (List Bytes)) :=
  ((fs.find? (fun p => p.1 == name)).map (fun p => p.2))

/-- Modelled from the spec: `encoding/csv`'s `Reader.ReadAll` (standard
library, not part of this repository) with the default `FieldsPerRecord`:
the first record fixes the expected field count and any record with a
different count aborts the whole parse with `ErrFieldCount`. -/
def csvReadAll (rows : List (List Bytes)) : Except String (List (List Bytes))
  :=
  match rows with
  | [] => Except.ok []
  | r0 :: rest =>
    if rest.all (fun r => r.length == r0.length) then Except.ok (r0 :: rest)
    else Except.error ("wrong number of fields")

/-- An input record: field name (raw header cell bytes, as the source keys
the Go map by the undecoded header string) to decoded cell value. -/
abbrev InRecord := List (Bytes × Str)

/-- One CSV cell decoded as the source does: `ConvertToUTF8` with a decode
failure merely logged, the value then being the empty string that
`ConvertToUTF8` returned alongside the error. -/
def decodeCell (b : Bytes) : Str :=
  match ConvertToUTF8 b with
  | Except.ok s => s
  | Except.error _ => []

/-- Go map assignment `record[key] = v` on the association-list embedding:
overwrite the value when the key is present, append otherwise. -/
def mapSet (m : InRecord) (k : Bytes) (v : Str) : InRecord :=
  if m.any (fun p => p.1 == k) then
    m.map (fun p => if p.1 == k then (k, v) else p)
  else m ++ [(k, v)]

/-- The record-building loop of `readFileContent`: zip one data row against
the header (their lengths are equal once `csvReadAll` succeeded). -/
def buildRecord (header row : List Bytes) : InRecord :=
  (header.zip row).foldl (fun m kv => mapSet m kv.1 (decodeCell kv.2)) []

/-- Possible outcomes of `readFileContent` under a total embedding:
a normal record list, a Go error value, or the run-aborting panic of the
out-of-bounds `records[0]` access on a zero-row parse. -/
inductive ReadResult where
  | panicked : ReadResult
  | failed (msg : String) : ReadResult
  | ok (records : List InRecord) : ReadResult
deriving DecidableEq

/-- Embedding of `readFileContent` (part_002 lines 322-358): open, parse the
CSV, then turn every data row into a record keyed by the header row.
`records[0]` on an empty parse is the panic branch. -/
def readFileContent (fs : Fs) (fileName : String) : ReadResult :=
  match fsFind fs fileName with
  | none => ReadResult.failed ("opening file")
  | some rows =>
    match csvReadAll rows with
    | Except.error e => ReadResult.failed e
    | Except.ok [] => ReadResult.panicked
    | Except.ok (header :: dataRows) =>
      ReadResult.ok (dataRows.map (fun row => buildRecord header row))

/-- The three shapes a composed JSON request body can take (single object,
record array, aggregate keyed by fragment name). -/
inductive Body where
  | obj (r : InRecord) : Body
  | arr (rs : List InRecord) : Body
  | frags (m : List (String × List InRecord)) : Body
deriving DecidableEq

/-- Outcome of `prepareBody` under a total embedding. -/
inductive PrepResult where
  | panicked : PrepResult
  | failed (msg : String) : PrepResult
  | ok (b : Body) : PrepResult
deriving DecidableEq

/-- The `input_<name>.csv` aggregation loop of `prepareBody` (part_002 lines
304-317), also returning the names of the files it opened. -/
def fragmentLoop (fs : Fs) (acc : List (String × List InRecord)) :
    List String → PrepResult × List String
  | [] => (PrepResult.ok (Body.frags acc), [])
  | n :: rest =>
    if n.startsWith ("input_") && n.endsWith (".csv") then
      let t := if (fsFind fs n).isSome then [n] else []
      match readFileContent fs n with
      | ReadResult.panicked => (PrepResult.panicked, t)
      | ReadResult.failed m =>
        (PrepResult.failed ("reading file content: " ++ n ++ ": " ++ m), t)
      | ReadResult.ok recs =>
        let key := (n.drop 6).dropRight 4
        let r := fragmentLoop fs (acc ++ [(key, recs)]) rest
        (r.1, t ++ r.2)
    else fragmentLoop fs acc rest

/-- Embedding of `prepareBody` (part_002 lines 281-320). Besides the
composed body it returns, in order, the names of the files that were
actually opened (the source logs "Reading file:" exactly for these). -/
def prepareBody (fs : Fs) : PrepResult × List String :=
  let t0 := if (fsFind fs objectFile).isSome then [objectFile] else []
  match readFileContent fs objectFile with
  | ReadResult.panicked => (PrepResult.panicked, t0)
  | ReadResult.ok recs =>
    match recs with
    | r :: _ => (PrepResult.ok (Body.obj r), t0)
    | [] => (PrepResult.failed ("empty object data file"), t0)
  | ReadResult.failed _ =>
    let t1 := t0 ++ (if (fsFind fs inputFile).isSome then [inputFile] else [])
    match readFileContent fs inputFile with
    | ReadResult.panicked => (PrepResult.panicked, t1)
    | ReadResult.ok recs => (PrepResult.ok (Body.arr recs), t1)
    | ReadResult.failed _ =>
      let r := fragmentLoop fs [] (fs.map (fun p => p.1))
      (r.1, t1 ++ r.2)

/-! ## Response envelope and materializer -/

/-- A decoded JSON scalar of a response record, with the `UseNumber`
decoding of the source: numbers keep their literal text
(`json.Number`), so `%v` renders them verbatim. -/
inductive JValue where
  | s (v : Str) : JValue
  | num (lit : Str) : JValue
  | b (v : Bool) : JValue
  | null : JValue
deriving DecidableEq

/-- A record of the response's `data` array: a decoded JSON object, the
association list carrying the field iteration order of the embedding. -/
abbrev OutRecord := List (Str × JValue)

/-- Envelope page metadata (`PageData`, json `page` / `totalPage`). -/
structure PageData where
  page : Int
  total : Int
deriving DecidableEq

/-- The decoded response envelope (`ApiResponse`). -/
structure ApiResponse where
  success : Bool
  message : String
  data : List OutRecord
  meta : PageData
deriving DecidableEq

/-- Go map read `row[key]`: `none` is the nil interface of a missing key. -/
def rowGet (row : OutRecord) (k : Str) : Option JValue :=
  ((row.find? (fun p => p.1 == k)).map (fun p => p.2))

/-- The `fmt.Sprintf("%v", row[key])` rendering of a looked-up value: a
missing key and a JSON null are both the nil interface, printed `<nil>`;
numbers print their literal; booleans print `true`/`false`. -/
def render : Option JValue → Str
  | none => "<nil>".toList
  | some (JValue.s v) => v
  | some (JValue.num l) => l
  | some (JValue.b true) => "true".toList
  | some (JValue.b false) => "false".toList
  | some JValue.null => "<nil>".toList

/-- First cell clean-up of `saveResponse` (part_002 line 261):
`strings.ReplaceAll(value, "\n", " ")`. -/
def replaceNl (s : Str) : Str := s.map (fun c => if c = '\n' then ' ' else c)

/-- Second cell clean-up of `saveResponse` (part_002 line 262):
`strings.ReplaceAll(value, "\r", "")`. -/
def dropCr (s : Str) : Str := s.filter (fun c => c != '\r')

/-- One written CSV cell for `row` under header field `key` (part_002 lines
260-268): render, newline clean-up, then the legacy conversion. -/
def cellOf (row : OutRecord) (key : Str) : Str :=
  ConvertToWindows1251 (dropCr (replaceNl (render (rowGet row key))))

/-- An output CSV file: its name and its rows (header row first). -/
structure SavedFile where
  name : String
  rows : List (List Str)
deriving DecidableEq

/-- Embedding of `saveResponse` (part_002 lines 217-279): no file for an
unsuccessful envelope; an empty `data` is only warned about and no file is
written; otherwise the header is the field iteration order of the first
record and each data record is written in header order. -/
def saveResponse (resp : ApiResponse) (output : String) : Option SavedFile :=
  if resp.success then
    match resp.data with
    | [] => none
    | r0 :: rest =>
      let header := r0.map (fun p => p.1)
      some { name := output,
             rows := header ::
               (r0 :: rest).map (fun row => header.map (fun k => cellOf row k)) }
  else none

/-! ## HTTP call driver -/

/-- A request URL, structurally: everything before the query, and the query
parameters. The source keeps the URL as a string and round-trips it through
`net/url` parsing and canonical re-encoding between pages; the embedding
keeps the parsed form. -/
structure Url where
  base : String
  query : List (String × String)
deriving DecidableEq

/-- `params.Set(key, value)` followed by re-encoding: every previous value
of the key is dropped and the single new pair is present. -/
def urlSetParam (u : Url) (key value : String) : Url :=
  { u with query := u.query.filter (fun p => p.1 != key) ++ [(key, value)] }

/-- The `Api` context of the source. -/
structure Api where
  url : Url
  inputPath : String
  outputPath : String
  token : String
  debug : Bool
deriving DecidableEq

/-- One issued HTTP request of the JSON path, with the headers
`doHttpMethod` sets (part_002 lines 140-148). -/
structure Request where
  method : String
  url : Url
  contentType : String
  auth : Option String
  body : Option Body
deriving DecidableEq

/-- Request construction of `doHttpMethod`: JSON content type always, the
bearer header exactly when a token is configured. -/
def mkRequest (a : Api) (method : String) (data : Option Body) : Request :=
  { method := method,
    url := a.url,
    contentType := "application/json",
    auth := if a.token = "" then none else some ("Bearer " ++ a.token),
    body := data }

/-- Observable outcome of a driver run: the requests issued, in order, and
the CSV files produced, in order. -/
structure RunResult where
  requests : List Request
  files : List SavedFile
deriving DecidableEq

/-- Embedding of `doHttpMethod` (part_002 lines 137-215). The remote side
is the oracle `envs`: the successive decoded response envelopes; an
exhausted oracle is a transport failure, aborting after the request was
issued. On a successful envelope the page is saved and, exactly when
`totalPage > page`, the `page` query parameter is overwritten with
`page+1` and the driver re-invokes itself with method GET, no body and the
page-numbered output name. -/
def doHttpMethod (envs : List ApiResponse) (a : Api) (method : String)
    (data : Option Body) (output : String) : RunResult :=
  let req := mkRequest a method data
  match envs with
  | [] => { requests := [req], files := [] }
  | e :: rest =>
    if e.success then
      let file := saveResponse e output
      if e.meta.total > e.meta.page then
        let nextPage := e.meta.page + 1
        let a2 := { a with url := urlSetParam a.url "page" (toString nextPage) }
        let sub := doHttpMethod rest a2 "GET" none
          ("output_" ++ toString nextPage ++ ".csv")
        { requests := req :: sub.requests, files := file.toList ++ sub.files }
      else { requests := [req], files := file.toList }
    else { requests := [req], files := [] }

/-! ## Multipart uploader -/

/-- One issued multipart POST request, with the single form file part and
the headers `doMultipartPost` sets. -/
structure MultipartRequest where
  method : String
  url : Url
  contentType : String
  auth : Option String
  fileField : String
  fileName : String
  fileBytes : Bytes
deriving DecidableEq

/-- Embedding of `doMultipartPost` (part_002 lines 415-492): `fileContent`
is the result of opening the boundary file (`none` aborts before any
request), `genBoundary` the boundary marker the multipart writer generated.
The only header the source sets is the multipart content type. -/
def doMultipartPost (a : Api) (fileContent : Option Bytes)
    (bnd genBoundary : String) : Option MultipartRequest :=
  fileContent.map (fun bs =>
    { method := "POST",
      url := a.url,
      contentType := "multipart/form-data; boundary=" ++ genBoundary,
      auth := none,
      fileField := "file",
      fileName := bnd,
      fileBytes := bs })

/-! ## Concrete fixtures used to instantiate the theorems -/

/-- A successful one-record envelope with the given page metadata. -/
def pageEnv (p t : Int) : ApiResponse :=
  { success := true, message := "",
    data := [[("a".toList, JValue.s ("x".toList))]],
    meta := { page := p, total := t } }

/-- A sample context without a bearer token. -/
def sampleApi : Api :=
  { url := { base := "http://host/res", query := [] },
    inputPath := "", outputPath := "", token := "", debug := false }

/-- A sample context with a configured bearer token. -/
def tokenApi : Api :=
  { url := { base := "http://host/res", query := [] },
    inputPath := "", outputPath := "", token := "tok", debug := false }

/-- A successful envelope whose single record holds a value with an embedded
newline. -/
def resp4 : ApiResponse :=
  { success := true, message := "",
    data := [[("k".toList, JValue.s ("a\nb".toList))]],
    meta := { page := 1, total := 1 } }

/-- A directory where `object.csv` is malformed (its data row has more
cells than its header row) while `input.csv` is well-formed. -/
def fsObjBad : Fs :=
  [(objectFile, [[[107]], [[118], [119]]]), (inputFile, [[[107]], [[118]]])]

/-- A directory where both `object.csv` and `input.csv` exist and are
well-formed. -/
def fsObjGood : Fs :=
  [(objectFile, [[[107]], [[118]]]), (inputFile, [[[108]], [[119]]])]

/-- A directory whose `input.csv` has a two-column header but a one-column
data row. -/
def fsShortRow : Fs :=
  [(inputFile, [[[107], [108]], [[118]]])]

/-- A directory whose `object.csv` parses to zero CSV rows (empty file). -/
def fsEmptyCsv : Fs :=
  [(objectFile, ([] : List (List Bytes)))]

/-! ## Lemmas about the sanitizer -/

lemma mem_replaceQmark_ne_qmark {s : Str} {c : Char} (h : c ∈ replaceQmark s) :
    c ≠ '?' := by
  simp only [replaceQmark, List.mem_map] at h
  obtain ⟨d, -, rfl⟩ := h
  by_cases hd : d = '?'
  · simp [hd]
  · simp [if_neg hd]
    exact hd

lemma replaceQmark_eq_self {s : Str} (h : ∀ c ∈ s, c ≠ '?') :
    replaceQmark s = s := by
  induction s with
  | nil => rfl
  | cons c t ih =>
    simp only [replaceQmark, List.map_cons]
    rw [if_neg (h c (List.mem_cons_self c t))]
    have ht := ih (fun d hd => h d (List.mem_cons_of_mem _ hd))
    simp only [replaceQmark] at ht
    rw [ht]

lemma fieldsGo_noSpace :
    ∀ (s acc : Str), (∀ c ∈ acc, goIsSpace c = false) →
      ∀ l ∈ fieldsGo acc s, l ≠ [] ∧ ∀ c ∈ l, goIsSpace c = false := by
  intro s
  induction s with
  | nil =>
    intro acc hacc l hl
    cases acc with
    | nil => simp [fieldsGo] at hl
    | cons a t =>
      simp only [fieldsGo, List.isEmpty_cons, if_neg] at hl
      simp only [Bool.false_eq_true, if_false, List.mem_singleton] at hl
      subst hl
      refine ⟨by simp, ?_⟩
      intro c hc
      exact hacc c (List.mem_reverse.mp hc)
  | cons c rest ih =>
    intro acc hacc l hl
    simp only [fieldsGo] at hl
    by_cases hsp : goIsSpace c = true
    · rw [if_pos hsp] at hl
      cases acc with
      | nil =>
        simp only [List.isEmpty_nil, if_pos] at hl
        exact ih [] (by simp) l hl
      | cons a t =>
        simp only [List.isEmpty_cons, Bool.false_eq_true, if_false,
          List.mem_cons] at hl
        rcases hl with hl | hl
        · subst hl
          refine ⟨by simp, ?_⟩
          intro d hd
          exact hacc d (List.mem_reverse.mp hd)
        · exact ih [] (by simp) l hl
    · rw [if_neg hsp] at hl
      refine ih (c :: acc) ?_ l hl
      intro d hd
      rcases List.mem_cons.mp hd with hd | hd
      · subst hd
        exact Bool.not_eq_true _ ▸ eq_false_of_ne_true hsp
      · exact hacc d hd

lemma fieldsGo_subset :
    ∀ (s acc l : Str), l ∈ fieldsGo acc s → ∀ c ∈ l, c ∈ acc ∨ c ∈ s := by
  intro s
  induction s with
  | nil =>
    intro acc l hl c hc
    cases acc with
    | nil => simp [fieldsGo] at hl
    | cons a t =>
      simp only [fieldsGo, List.isEmpty_cons, Bool.false_eq_true, if_false,
        List.mem_singleton] at hl
      subst hl
      exact Or.inl (List.mem_reverse.mp hc)
  | cons b rest ih =>
    intro acc l hl c hc
    simp only [fieldsGo] at hl
    by_cases hsp : goIsSpace b = true
    · rw [if_pos hsp] at hl
      cases acc with
      | nil =>
        simp only [List.isEmpty_nil, if_pos] at hl
        rcases ih [] l hl c hc with h | h
        · simp at h
        · exact Or.inr (List.mem_cons_of_mem _ h)
      | cons a t =>
        simp only [List.isEmpty_cons, Bool.false_eq_true, if_false,
          List.mem_cons] at hl
        rcases hl with hl | hl
        · subst hl
          exact Or.inl (List.mem_reverse.mp hc)
        · rcases ih [] l hl c hc with h | h
          · simp at h
          · exact Or.inr (List.mem_cons_of_mem _ h)
    · rw [if_neg hsp] at hl
      rcases ih (b :: acc) l hl c hc with h | h
      · rcases List.mem_cons.mp h with h | h
        · exact Or.inr (h ▸ List.mem_cons_self _ _)
        · exact Or.inl h
      · exact Or.inr (List.mem_cons_of_mem _ h)

lemma fieldsGo_append_word :
    ∀ (w : Str), (∀ c ∈ w, goIsSpace c = false) →
      ∀ (acc rest : Str), fieldsGo acc (w ++ rest) = fieldsGo (w.reverse ++ acc) rest := by
  intro w
  induction w with
  | nil => intro _ acc rest; simp
  | cons c t ih =>
    intro hw acc rest
    have hc : goIsSpace c = false := hw c (List.mem_cons_self c t)
    simp only [List.cons_append, fieldsGo, hc, Bool.false_eq_true, if_false]
    rw [List.append_eq, ih (fun d hd => hw d (List.mem_cons_of_mem _ hd)) (c :: acc) rest]
    simp

lemma goFields_join :
    ∀ (L : List Str), (∀ l ∈ L, l ≠ [] ∧ ∀ c ∈ l, goIsSpace c = false) →
      goFields (goJoinSpace L) = L := by
  intro L
  induction L with
  | nil => intro _; rfl
  | cons w t ih =>
    intro h
    obtain ⟨hw, hwc⟩ := h w (List.mem_cons_self w t)
    cases t with
    | nil =>
      show fieldsGo [] (goJoinSpace [w]) = [w]
      have : goJoinSpace [w] = w ++ [] := by simp [goJoinSpace]
      rw [this, fieldsGo_append_word w hwc [] []]
      cases hr : w.reverse with
      | nil => exact absurd (by simpa using hr) hw
      | cons a s => simp [fieldsGo, ← hr, hw]
    | cons w2 t2 =>
      show fieldsGo [] (goJoinSpace (w :: w2 :: t2)) = w :: w2 :: t2
      have hj : goJoinSpace (w :: w2 :: t2) = w ++ ' ' :: goJoinSpace (w2 :: t2) := rfl
      rw [hj, fieldsGo_append_word w hwc [] (' ' :: goJoinSpace (w2 :: t2))]
      cases hr : w.reverse with
      | nil => exact absurd (by simpa using hr) hw
      | cons a s =>
        have hsp : goIsSpace ' ' = true := by decide
        simp only [List.append_nil, hr, fieldsGo, hsp, if_pos, List.isEmpty_cons,
          Bool.false_eq_true, if_false]
        rw [← hr]
        simp only [List.reverse_reverse]
        have := ih (fun l hl => h l (List.mem_cons_of_mem _ hl))
        simp only [goFields] at this
        rw [this]

lemma mem_goJoinSpace :
    ∀ (L : List Str) (c : Char), c ∈ goJoinSpace L →
      c = ' ' ∨ ∃ l, l ∈ L ∧ c ∈ l := by
  intro L
  induction L with
  | nil => intro c hc; simp [goJoinSpace] at hc
  | cons w t ih =>
    intro c hc
    cases t with
    | nil =>
      simp only [goJoinSpace] at hc
      exact Or.inr ⟨w, List.mem_cons_self w [], hc⟩
    | cons w2 t2 =>
      have hj : goJoinSpace (w :: w2 :: t2) = w ++ ' ' :: goJoinSpace (w2 :: t2) := rfl
      rw [hj] at hc
      rcases List.mem_append.mp hc with h | h
      · exact Or.inr ⟨w, List.mem_cons_self w _, h⟩
      · rcases List.mem_cons.mp h with h | h
        · exact Or.inl h
        · rcases ih c h with h2 | ⟨l, hl, hcl⟩
          · exact Or.inl h2
          · exact Or.inr ⟨l, List.mem_cons_of_mem _ hl, hcl⟩

lemma mem_sanitizeWin1251 {s : Str} {c : Char} (h : c ∈ sanitizeWin1251 s) :
    c = ' ' ∨ (goIsSpace c = false ∧ c ≠ '?') := by
  rcases mem_goJoinSpace _ c h with h1 | ⟨l, hl, hcl⟩
  · exact Or.inl h1
  · refine Or.inr ⟨(fieldsGo_noSpace _ [] (by simp) l hl).2 c hcl, ?_⟩
    rcases fieldsGo_subset _ [] l hl c hcl with h2 | h2
    · simp at h2
    · exact mem_replaceQmark_ne_qmark h2

lemma sanitizeWin1251_no_qmark (s : Str) : '?' ∉ sanitizeWin1251 s := by
  intro h
  rcases mem_sanitizeWin1251 h with h1 | ⟨-, h2⟩
  · simp at h1
  · exact h2 rfl

lemma sanitizeWin1251_idem (s : Str) :
    sanitizeWin1251 (sanitizeWin1251 s) = sanitizeWin1251 s := by
  have hfields := fieldsGo_noSpace (replaceQmark s) [] (by simp)
  have hrq : replaceQmark (sanitizeWin1251 s) = sanitizeWin1251 s := by
    refine replaceQmark_eq_self ?_
    intro c hc hcq
    exact sanitizeWin1251_no_qmark s (hcq ▸ hc)
  show goJoinSpace (goFields (replaceQmark (sanitizeWin1251 s))) = sanitizeWin1251 s
  rw [hrq]
  show goJoinSpace (goFields (goJoinSpace (goFields (replaceQmark s)))) =
    sanitizeWin1251 s
  rw [goFields_join (goFields (replaceQmark s)) hfields]
  rfl

lemma not_space_mem_ConvertToWindows1251 {s : Str} {c : Char}
    (hsp : goIsSpace c = true) (hne : c ≠ ' ') : c ∉ ConvertToWindows1251 s := by
  intro h
  rcases mem_sanitizeWin1251 h with h1 | ⟨h2, -⟩
  · exact hne h1
  · rw [hsp] at h2
    cases h2

/-! ## Lemmas about the decoder and the driver -/

lemma ConvertToUTF8_error_iff :
    ∀ bs : Bytes, ConvertToUTF8 bs = Except.error () ↔
      ∃ b ∈ bs, win1251DecodeByte b = none := by
  intro bs
  induction bs with
  | nil => simp [ConvertToUTF8]
  | cons b rest ih =>
    constructor
    · intro h
      simp only [ConvertToUTF8] at h
      cases hdec : win1251DecodeByte b with
      | none => exact ⟨b, List.mem_cons_self _ _, hdec⟩
      | some c =>
        rw [hdec] at h
        cases hrec : ConvertToUTF8 rest with
        | error e =>
          cases e
          obtain ⟨x, hx, hxd⟩ := ih.mp hrec
          exact ⟨x, List.mem_cons_of_mem _ hx, hxd⟩
        | ok cs =>
          rw [hrec] at h
          exact absurd h (by simp)
    · rintro ⟨x, hx, hxd⟩
      rcases List.mem_cons.mp hx with rfl | hx
      · simp [ConvertToUTF8, hxd]
      · have herr := ih.mpr ⟨x, hx, hxd⟩
        simp only [ConvertToUTF8, herr]
        cases win1251DecodeByte b <;> simp

lemma doHttpMethod_requests_ne_nil (envs : List ApiResponse) (a : Api)
    (m : String) (d : Option Body) (out : String) :
    (doHttpMethod envs a m d out).requests ≠ [] := by
  cases envs with
  | nil => simp [doHttpMethod]
  | cons e rest =>
    simp only [doHttpMethod]
    by_cases hs : e.success
    · simp only [hs, if_true]
      by_cases hp : e.meta.total > e.meta.page
      · simp [hp]
      · simp [hp]
    · simp [hs]

lemma doHttpMethod_first_request (envs : List ApiResponse) (a : Api)
    (m : String) (d : Option Body) (out : String) :
    (doHttpMethod envs a m d out).requests[0]? = some (mkRequest a m d) := by
  cases envs with
  | nil => simp [doHttpMethod]
  | cons e rest =>
    simp only [doHttpMethod]
    by_cases hs : e.success
    · simp only [hs, if_true]
      by_cases hp : e.meta.total > e.meta.page
      · simp [hp]
      · simp [hp]
    · simp [hs]

/-! ## Claim theorems -/

/-- C7: `ConvertToUTF8` (toUnicode) fails with a decode error exactly when
some input byte has no mapping in the fixed legacy single-byte table; in
particular the unmapped byte `0x98` makes the conversion return an error
rather than a best-effort string. -/
theorem ConvertToUTF8_fails_iff_unmapped :
    (∀ bs : Bytes, ConvertToUTF8 bs = Except.error () ↔
      ∃ b ∈ bs, win1251DecodeByte b = none)
    ∧ win1251DecodeByte 0x98 = none
    ∧ ConvertToUTF8 [0x98] = Except.error () := by
  refine ⟨ConvertToUTF8_error_iff, by decide, ?_⟩
  have h := (ConvertToUTF8_error_iff [0x98]).mpr ⟨0x98, by simp, by decide⟩
  exact h

/-- C8: the sanitizer of `ConvertToWindows1251` (replace every placeholder
byte with a space, then collapse white-space runs to single spaces and
trim) is idempotent. -/
theorem sanitizeWin1251_idempotent :
    ∀ s : Str, sanitizeWin1251 (sanitizeWin1251 s) = sanitizeWin1251 s :=
  sanitizeWin1251_idem

/-- C10: `ConvertToWindows1251` replaces every literal `?` of its input with
a space (not only the placeholders produced for unmappable characters): the
all-encodable input `a?b` comes out as `a b`, and no output of the
conversion ever contains a `?` character. -/
theorem ConvertToWindows1251_qmark :
    (∀ s : Str, '?' ∉ ConvertToWindows1251 s)
    ∧ (∀ c ∈ ("a?b".toList), win1251EncodeChar c = c)
    ∧ ConvertToWindows1251 ("a?b".toList) = "a b".toList
    ∧ "a?b".toList ≠ "a b".toList := by
  refine ⟨?_, by decide, by decide, by decide⟩
  intro s h
  exact sanitizeWin1251_no_qmark _ h

/-- C3: for every successful envelope with a non-empty record set, the
written CSV's header row is exactly the field names of the first record in
that record's field order — whatever the later records hold — and every
data row is emitted in this header order. -/
theorem saveResponse_header_first_record :
    ∀ (resp : ApiResponse) (out : String) (r0 : OutRecord)
      (rest : List OutRecord),
      resp.success = true → resp.data = r0 :: rest →
      saveResponse resp out =
        some { name := out,
               rows := (r0.map (fun p => p.1)) ::
                 (r0 :: rest).map (fun row =>
                   (r0.map (fun p => p.1)).map (fun k => cellOf row k)) } := by
  intro resp out r0 rest hs hd
  simp [saveResponse, hs, hd]

/-- Witness for C3 at a concrete envelope. -/
theorem saveResponse_header_first_record_witness :
    saveResponse resp4 outputFile =
      some { name := outputFile,
             rows := ([("k".toList, JValue.s ("a\nb".toList))].map (fun p => p.1)) ::
               [[("k".toList, JValue.s ("a\nb".toList))]].map (fun row =>
                 ([("k".toList, JValue.s ("a\nb".toList))].map (fun p => p.1)).map
                   (fun k => cellOf row k)) } :=
  saveResponse_header_first_record resp4 outputFile
    [("k".toList, JValue.s ("a\nb".toList))] [] rfl rfl

/-- C4 counterexample: the value `a\nb` is written as the cell `a b`, not as
`ab` — the newline is replaced by a space, not stripped. -/
theorem saveResponse_newline_counterexample :
    saveResponse resp4 outputFile =
      some { name := outputFile, rows := [["k".toList], ["a b".toList]] }
    ∧ "a b".toList ≠ "ab".toList := by
  refine ⟨by decide, by decide⟩

/-- C4 (amended): every written cell is the rendered value with each `\r`
removed and each `\n` replaced by an ASCII space, passed through
`ConvertToWindows1251`; consequently no written data cell ever contains a
newline or carriage-return character. -/
theorem saveResponse_cell_newline_handling :
    ∀ (resp : ApiResponse) (out : String) (f : SavedFile),
      saveResponse resp out = some f →
      (∃ hdr, f.rows = hdr :: resp.data.map (fun row =>
        hdr.map (fun k =>
          ConvertToWindows1251 (dropCr (replaceNl (render (rowGet row k)))))))
      ∧ ∀ r ∈ f.rows.tail, ∀ cell ∈ r, '\n' ∉ cell ∧ '\r' ∉ cell := by
  intro resp out f hf
  simp only [saveResponse] at hf
  by_cases hs : resp.success
  · rw [if_pos hs] at hf
    cases hd : resp.data with
    | nil => rw [hd] at hf; cases hf
    | cons r0 rest =>
      rw [hd] at hf
      simp only [Option.some.injEq] at hf
      subst hf
      constructor
      · exact ⟨r0.map (fun p => p.1), rfl⟩
      · intro r hr cell hc
        simp only [List.tail_cons, List.mem_map] at hr
        obtain ⟨row, -, rfl⟩ := hr
        simp only [List.mem_map] at hc
        obtain ⟨k, -, rfl⟩ := hc
        constructor
        · exact not_space_mem_ConvertToWindows1251 (by decide) (by decide)
        · exact not_space_mem_ConvertToWindows1251 (by decide) (by decide)
  · rw [if_neg hs] at hf
    cases hf

/-- Witness for the amended C4 at a concrete envelope. -/
theorem saveResponse_cell_newline_handling_witness :
    (∃ hdr, [["k".toList], ["a b".toList]] = hdr :: resp4.data.map (fun row =>
      hdr.map (fun k =>
        ConvertToWindows1251 (dropCr (replaceNl (render (rowGet row k)))))))
    ∧ ∀ r ∈ ([["k".toList], ["a b".toList]] : List (List Str)).tail,
        ∀ cell ∈ r, '\n' ∉ cell ∧ '\r' ∉ cell :=
  saveResponse_cell_newline_handling resp4 outputFile
    { name := outputFile, rows := [["k".toList], ["a b".toList]] } (by decide)

/-- C9: `readFileContent` on a file whose CSV parse yields zero rows hits
the out-of-bounds `records[0]` access: under the total embedding the panic
branch is taken and no normal record list can be returned. -/
theorem readFileContent_empty_panics :
    ∀ (fs : Fs) (name : String), fsFind fs name = some [] →
      readFileContent fs name = ReadResult.panicked
      ∧ ∀ recs, readFileContent fs name ≠ ReadResult.ok recs := by
  intro fs name h
  have h1 : readFileContent fs name = ReadResult.panicked := by
    simp [readFileContent, h, csvReadAll]
  refine ⟨h1, ?_⟩
  intro recs hok
  rw [h1] at hok
  cases hok

/-- Witness for C9: an empty `object.csv` panics. -/
theorem readFileContent_empty_panics_witness :
    readFileContent fsEmptyCsv objectFile = ReadResult.panicked :=
  (readFileContent_empty_panics fsEmptyCsv objectFile rfl).1

/-- C5 counterexample: a data row with fewer columns than the header makes
the whole CSV parse fail (Go's field-count check), so `readFileContent`
returns an error instead of a permissive record. -/
theorem readFileContent_short_row_counterexample :
    readFileContent fsShortRow inputFile =
      ReadResult.failed ("wrong number of fields")
    ∧ ∀ recs, readFileContent fsShortRow inputFile ≠ ReadResult.ok recs := by
  refine ⟨by decide, ?_⟩
  intro recs hok
  rw [(by decide : readFileContent fsShortRow inputFile =
    ReadResult.failed ("wrong number of fields"))] at hok
  cases hok

/-- C5 (amended): a data row whose column count differs from the header's
(fewer or more) aborts the parse with the field-count error, so
`readFileContent` fails on the whole file; no record with silently-unset or
silently-ignored fields is ever produced. -/
theorem readFileContent_field_count :
    ∀ (fs : Fs) (name : String) (r0 row : List Bytes)
      (rest : List (List Bytes)),
      fsFind fs name = some (r0 :: rest) → row ∈ rest →
      row.length ≠ r0.length →
      readFileContent fs name = ReadResult.failed ("wrong number of fields") := by
  intro fs name r0 row rest hfind hmem hlen
  have hall : rest.all (fun r => r.length == r0.length) = false := by
    refine Bool.eq_false_iff.mpr ?_
    intro hA
    exact hlen (Nat.beq_eq_true_eq _ _ ▸ List.all_eq_true.mp hA row hmem)
  simp [readFileContent, hfind, csvReadAll, hall]

/-- Witness for the amended C5 at the concrete short-row file. -/
theorem readFileContent_field_count_witness :
    readFileContent fsShortRow inputFile =
      ReadResult.failed ("wrong number of fields") :=
  readFileContent_field_count fsShortRow inputFile [[107], [108]] [[118]]
    [[[118]]] rfl (by simp) (by decide)

/-- C2 counterexample: with both files present but `object.csv` malformed
(ragged rows), body composition falls through and `input.csv` IS read. -/
theorem prepareBody_fallthrough_counterexample :
    (fsFind fsObjBad objectFile).isSome = true
    ∧ (fsFind fsObjBad inputFile).isSome = true
    ∧ inputFile ∈ (prepareBody fsObjBad).2 := by
  refine ⟨by decide, by decide, by decide⟩

/-- C2 (amended): the input modes are probed in strict priority order with
the first success winning. When `object.csv` opens and parses (header row
present, uniform field counts) it alone decides the body: a first data
record becomes the single JSON object, zero data rows are the fatal
empty-input error, and in both cases `input.csv` is never read. Only when
`object.csv` is absent (or fails to read or parse) does composition fall
through to `input.csv`, and only when that probe also fails to the
`input_<name>.csv` aggregation. -/
theorem prepareBody_priority :
    (∀ (fs : Fs) (r0 row2 : List Bytes) (rest : List (List Bytes)),
      fsFind fs objectFile = some (r0 :: row2 :: rest) →
      ((row2 :: rest).all (fun r => r.length == r0.length)) = true →
      (prepareBody fs).1 = PrepResult.ok (Body.obj (buildRecord r0 row2))
      ∧ inputFile ∉ (prepareBody fs).2)
    ∧ (∀ (fs : Fs) (r0 : List Bytes),
      fsFind fs objectFile = some [r0] →
      (prepareBody fs).1 = PrepResult.failed ("empty object data file")
      ∧ inputFile ∉ (prepareBody fs).2)
    ∧ (∀ (fs : Fs) (r0 : List Bytes) (rest : List (List Bytes)),
      fsFind fs objectFile = none →
      fsFind fs inputFile = some (r0 :: rest) →
      (rest.all (fun r => r.length == r0.length)) = true →
      (prepareBody fs).1 =
        PrepResult.ok (Body.arr (rest.map (fun row => buildRecord r0 row))))
    ∧ (∀ fs : Fs,
      fsFind fs objectFile = none → fsFind fs inputFile = none →
      (prepareBody fs).1 = (fragmentLoop fs [] (fs.map (fun p => p.1))).1) := by
  refine ⟨?_, ?_, ?_, ?_⟩
  · intro fs r0 row2 rest hfind hall
    have hread : readFileContent fs objectFile =
        ReadResult.ok (buildRecord r0 row2 :: rest.map (fun row => buildRecord r0 row)) := by
      simp [readFileContent, hfind, csvReadAll, hall]
    constructor
    · simp [prepareBody, hread]
    · simp [prepareBody, hread, hfind]
      decide
  · intro fs r0 hfind
    have hread : readFileContent fs objectFile = ReadResult.ok [] := by
      simp [readFileContent, hfind, csvReadAll]
    constructor
    · simp [prepareBody, hread]
    · simp [prepareBody, hread, hfind]
      decide
  · intro fs r0 rest hfind0 hfind1 hall
    have hread0 : readFileContent fs objectFile = ReadResult.failed ("opening file") := by
      simp [readFileContent, hfind0]
    have hread1 : readFileContent fs inputFile =
        ReadResult.ok (rest.map (fun row => buildRecord r0 row)) := by
      simp [readFileContent, hfind1, csvReadAll, hall]
    simp [prepareBody, hread0, hread1]
  · intro fs hfind0 hfind1
    have hread0 : readFileContent fs objectFile = ReadResult.failed ("opening file") := by
      simp [readFileContent, hfind0]
    have hread1 : readFileContent fs inputFile = ReadResult.failed ("opening file") := by
      simp [readFileContent, hfind1]
    simp [prepareBody, hread0, hread1]

/-- Witness for the amended C2: with both files present and well-formed,
the single-object mode wins and `input.csv` is not read. -/
theorem prepareBody_priority_witness :
    (prepareBody fsObjGood).1 = PrepResult.ok (Body.obj (buildRecord [[107]] [[118]]))
    ∧ inputFile ∉ (prepareBody fsObjGood).2 :=
  prepareBody_priority.1 fsObjGood [[107]] [[118]] [] rfl rfl

/-- C1: after a successful page, a next request is issued exactly when
`totalPage > page`; that next request carries the current URL with its
`page` query parameter overwritten to `page+1`, method forced to GET and no
body; recursion stops when `totalPage <= page`. For the envelope sequence
`(1,3),(2,3),(3,3)` exactly 3 requests are issued, producing `output.csv`,
`output_2.csv`, `output_3.csv`; for `(1,1)` exactly 1 request, producing
only `output.csv`. -/
theorem doHttpMethod_pagination :
    (∀ (e : ApiResponse) (rest : List ApiResponse) (a : Api) (method : String)
        (data : Option Body) (output : String), e.success = true →
      (2 ≤ (doHttpMethod (e :: rest) a method data output).requests.length ↔
        e.meta.total > e.meta.page)
      ∧ (e.meta.total > e.meta.page →
          (doHttpMethod (e :: rest) a method data output).requests[1]? =
            some (mkRequest
              { a with url := urlSetParam a.url "page" (toString (e.meta.page + 1)) }
              "GET" none))
      ∧ (e.meta.total ≤ e.meta.page →
          (doHttpMethod (e :: rest) a method data output).requests =
            [mkRequest a method data]))
    ∧ (∀ (a : Api) (method : String) (data : Option Body),
      (doHttpMethod [pageEnv 1 3, pageEnv 2 3, pageEnv 3 3] a method data
        outputFile).requests.length = 3
      ∧ ((doHttpMethod [pageEnv 1 3, pageEnv 2 3, pageEnv 3 3] a method data
        outputFile).files.map (fun f => f.name)) =
          ["output.csv", "output_2.csv", "output_3.csv"])
    ∧ (∀ (a : Api) (method : String) (data : Option Body),
      (doHttpMethod [pageEnv 1 1] a method data outputFile).requests.length = 1
      ∧ ((doHttpMethod [pageEnv 1 1] a method data
        outputFile).files.map (fun f => f.name)) = ["output.csv"]) := by
  refine ⟨?_, ?_, ?_⟩
  · intro e rest a method data output hs
    by_cases hp : e.meta.total > e.meta.page
    · have hrun : doHttpMethod (e :: rest) a method data output =
        { requests := mkRequest a method data ::
            (doHttpMethod rest
              { a with url := urlSetParam a.url "page" (toString (e.meta.page + 1)) }
              "GET" none
              ("output_" ++ toString (e.meta.page + 1) ++ ".csv")).requests,
          files := (saveResponse e output).toList ++
            (doHttpMethod rest
              { a with url := urlSetParam a.url "page" (toString (e.meta.page + 1)) }
              "GET" none
              ("output_" ++ toString (e.meta.page + 1) ++ ".csv")).files } := by
        simp [doHttpMethod, hs, hp]
      refine ⟨?_, ?_, ?_⟩
      · rw [hrun]
        simp only [List.length_cons, true_iff, hp, iff_true]
        have hne := doHttpMethod_requests_ne_nil rest
          { a with url := urlSetParam a.url "page" (toString (e.meta.page + 1)) }
          "GET" none ("output_" ++ toString (e.meta.page + 1) ++ ".csv")
        have := List.length_pos.mpr hne
        omega
      · intro _
        rw [hrun]
        simp only [List.getElem?_cons_succ]
        exact doHttpMethod_first_request _ _ _ _ _
      · intro hle
        exact absurd hp (not_lt.mpr hle)
    · have hrun : doHttpMethod (e :: rest) a method data output =
        { requests := [mkRequest a method data],
          files := (saveResponse e output).toList } := by
        simp [doHttpMethod, hs, hp]
      refine ⟨?_, ?_, ?_⟩
      · rw [hrun]
        simp only [List.length_singleton]
        constructor
        · intro h; omega
        · intro h; exact absurd h hp
      · intro h; exact absurd h hp
      · intro _; rw [hrun]
  · intro a method data
    exact ⟨rfl, rfl⟩
  · intro a method data
    exact ⟨rfl, rfl⟩

/-- Witness for C1: for a first envelope with `totalPage > page` a second
request is indeed issued. -/
theorem doHttpMethod_pagination_witness :
    2 ≤ (doHttpMethod [pageEnv 1 3] sampleApi "GET" none outputFile).requests.length :=
  ((doHttpMethod_pagination.1 (pageEnv 1 3) [] sampleApi "GET" none outputFile
    rfl).1).mpr (by decide)

/-- C6 counterexample: even with a configured bearer token, the multipart
POST carries no authorization header (while it does carry the multipart
content type with its boundary). -/
theorem doMultipartPost_no_auth_counterexample :
    tokenApi.token ≠ ""
    ∧ ((doMultipartPost tokenApi (some [104, 105]) "f.bin" "B123").map
        (fun r => r.auth)) = some none
    ∧ ((doMultipartPost tokenApi (some [104, 105]) "f.bin" "B123").map
        (fun r => r.contentType)) =
          some ("multipart/form-data; boundary=B123") := by
  refine ⟨by decide, rfl, rfl⟩

/-- C6 (amended): every issued multipart upload is a POST carrying the
multipart content-type header with its boundary marker and the single
`file` form field, but never an authorization header — the source sets no
bearer header on this path, whether or not a token is configured. -/
theorem doMultipartPost_headers :
    ∀ (a : Api) (bs : Bytes) (bnd gb : String),
      doMultipartPost a (some bs) bnd gb =
        some { method := "POST", url := a.url,
               contentType := "multipart/form-data; boundary=" ++ gb,
               auth := none, fileField := "file", fileName := bnd,
               fileBytes := bs }
      ∧ doMultipartPost a none bnd gb = none := by
  intro a bs bnd gb
  exact ⟨rfl, rfl⟩
